import Mathlib

/-!
Verification of the adamant repository's core: the command-allocator pool,
COM handle reference counting, the fence/event synchronization primitives,
the descriptor allocator, the command-context resource-barrier tracking and
the device-lost recovery path of the frame pipeline.  Each Rust function is
shallowly embedded as an executable Lean definition; machine integers are
modelled as Nat with explicit `% 2 ^ 32` where the code truncates.
-/

namespace AllocatorPool

/-- State of `CommandAllocatorPool` (src/command/allocator.rs): `poolLen` is
`pool.len()` (each pool entry is a `CommandAllocator` whose `id` is its index
of creation), `freeList` is the `free_list: Vec<(u64, usize)>` of
(fence value, allocator id) pairs, pushed at the back. -/
structure Pool where
  poolLen : Nat
  freeList : List (Nat × Nat)
deriving Repr, DecidableEq

/-- What `request` hands back: a reused pool entry or a freshly constructed
allocator (identified by its creation id). -/
inductive ReqResult where
  | reused (id : Nat)
  | fresh (id : Nat)
deriving Repr, DecidableEq

/-- `CommandAllocatorPool::new`: empty pool, empty free list. -/
def Pool.init : Pool := { poolLen := 0, freeList := [] }

/-- `CommandAllocatorPool::request(completed_fence_value)`: looks at
`free_list.last()` only; if that entry's fence value is `<= v` it returns the
corresponding pool entry (the free list is NOT popped, exactly as in the
source); otherwise it constructs a brand-new allocator with id `pool.len()`
and pushes it into the pool. -/
def Pool.request (s : Pool) (v : Nat) : ReqResult × Pool :=
  match s.freeList.getLast? with
  | some (t, id) =>
      if t ≤ v then (ReqResult.reused id, s)
      else (ReqResult.fresh s.poolLen, { s with poolLen := s.poolLen + 1 })
  | none => (ReqResult.fresh s.poolLen, { s with poolLen := s.poolLen + 1 })

/-- `CommandAllocatorPool::free(fence_value, command_allocator)`: pushes
`(fence_value, command_allocator.id)` at the back of the free list. -/
def Pool.free (s : Pool) (t : Nat) (id : Nat) : Pool :=
  { s with freeList := s.freeList ++ [(t, id)] }

/-- The pool state after a sequence of `free(t_i, a_i)` calls on a new pool. -/
def applyFrees (fs : List (Nat × Nat)) : Pool :=
  fs.foldl (fun s p => s.free p.1 p.2) Pool.init

theorem foldl_free_eq (fs : List (Nat × Nat)) (s : Pool) :
    fs.foldl (fun s p => s.free p.1 p.2) s =
      { poolLen := s.poolLen, freeList := s.freeList ++ fs } := by
  induction fs generalizing s with
  | nil => simp
  | cons p fs ih =>
      rw [List.foldl_cons, ih]
      simp [Pool.free]

theorem applyFrees_eq (fs : List (Nat × Nat)) :
    applyFrees fs = { poolLen := 0, freeList := fs } := by
  simpa [applyFrees, Pool.init] using foldl_free_eq fs Pool.init

theorem mem_of_getLast?_eq {α : Type} {l : List α} {a : α}
    (h : l.getLast? = some a) : a ∈ l := by
  rcases List.mem_getLast?_eq_getLast (x := a) (l := l)
      (by simp [Option.mem_def, h]) with ⟨hne, rfl⟩
  exact List.getLast_mem hne

/-- Claim C1 (amended): after any sequence of `free(t_i, a_i)` calls,
`request(v)` either reuses an allocator that was freed with a tag `t ≤ v` —
namely the most recently freed entry, when its tag qualifies — or constructs
a brand-new allocator; a brand-new allocator is constructed exactly when the
most recently freed entry's tag exceeds `v` (or no freed entry exists), even
if an older freed entry would qualify. -/
theorem request_last_entry_or_fresh (fs : List (Nat × Nat)) (v : Nat) :
    (∃ t id, ((applyFrees fs).request v).1 = ReqResult.reused id ∧
        fs.getLast? = some (t, id) ∧ t ≤ v ∧ (t, id) ∈ fs) ∨
    (((applyFrees fs).request v).1 = ReqResult.fresh (applyFrees fs).poolLen ∧
        ((applyFrees fs).request v).2.poolLen = (applyFrees fs).poolLen + 1 ∧
        ∀ t id, fs.getLast? = some (t, id) → v < t) := by
  rw [applyFrees_eq]
  cases hl : fs.getLast? with
  | none =>
      right
      refine ⟨by simp [Pool.request, hl], by simp [Pool.request, hl], ?_⟩
      intro t id h
      exact absurd h (by simp)
  | some p =>
      obtain ⟨t, id⟩ := p
      by_cases hle : t ≤ v
      · left
        exact ⟨t, id, by simp [Pool.request, hl, hle], rfl,
          hle, mem_of_getLast?_eq hl⟩
      · right
        refine ⟨by simp [Pool.request, hl, hle], by simp [Pool.request, hl, hle], ?_⟩
        intro t' id' h
        cases h
        omega

/-- Claim C1 counterexample: after `free(5, 0); free(10, 1)`, the entry
`(5, 0)` is eligible for `request(7)` (it was freed with tag `5 ≤ 7`), yet
`request(7)` constructs a brand-new allocator because it only inspects the
most recently freed entry `(10, 1)`, whose tag exceeds `7`. -/
theorem request_ignores_older_eligible_entry :
    ((applyFrees [(5, 0), (10, 1)]).request 7).1 = ReqResult.fresh 0 ∧
      (5, 0) ∈ [((5 : Nat), (0 : Nat)), (10, 1)] ∧ 5 ≤ 7 := by
  refine ⟨?_, by decide, by decide⟩
  rw [applyFrees_eq]
  decide

/-- Claim C2, evaluated at the failing input: after `free(0, a₀)` two
successive `request(0)` calls, with no intervening `free`, both return pool
entry `0` — `request` never removes the entry it hands out from the free
list, so the same allocator is lent to two callers at once. -/
theorem request_double_lends_same_entry :
    (((applyFrees [(0, 0)]).request 0).1 = ReqResult.reused 0 ∧
        (((applyFrees [(0, 0)]).request 0).2.request 0).1 = ReqResult.reused 0) ∧
      ((applyFrees [(0, 0)]).request 0).2.freeList = [(0, 0)] := by
  rw [applyFrees_eq]
  decide

end AllocatorPool

namespace Com

/-- Number of `AddRef` calls `impl Clone for ComPtr` (src/com.rs) performs:
one when the pointer is non-null (`if !self.is_null() { AddRef() }`), none on
a null handle.  A handle is `Option Nat`: `none` is the null pointer, `some o`
points at the reference-counted object `o`. -/
def cloneAddRefs (p : Option Nat) : Nat :=
  match p with
  | none => 0
  | some _ => 1

/-- Number of `Release` calls `impl Drop for ComPtr` (src/com.rs) performs:
one when the pointer is non-null, none on a null handle. -/
def dropReleases (p : Option Nat) : Nat :=
  match p with
  | none => 0
  | some _ => 1

/-- An operation on the set of (non-null) handles aliasing one mock
reference-counted object: clone an existing live handle, or drop one. -/
inductive ComOp where
  | clone
  | drop
deriving Repr, DecidableEq

/-- State of the mock reference-counted stub object together with the live
handles aliasing it: `handles` live `ComPtr`s, the object's native `refCount`,
the cumulative numbers of `AddRef`/`Release` calls, how many times the count
reached zero and the object was destroyed, and `ok`, which turns false if an
operation is attempted with no live handle (an invalid sequence). -/
structure ComState where
  handles : Nat
  refCount : Nat
  addRefCalls : Nat
  releaseCalls : Nat
  destructions : Nat
  ok : Bool
deriving Repr, DecidableEq

/-- `ComPtr::from_raw` on a freshly created object: one handle owning the one
existing reference. -/
def ComState.start : ComState :=
  { handles := 1, refCount := 1, addRefCalls := 0, releaseCalls := 0,
    destructions := 0, ok := true }

/-- One clone or drop.  Clone runs `Clone::clone` on a live non-null handle:
exactly one `AddRef` (`cloneAddRefs (some o) = 1`), one more aliasing handle.
Drop runs `Drop::drop`: exactly one `Release` (`dropReleases (some o) = 1`),
one handle gone; the mock object destroys itself when its count reaches 0. -/
def comStep (s : ComState) (op : ComOp) : ComState :=
  if s.handles = 0 then { s with ok := false }
  else
    match op with
    | ComOp.clone =>
        { s with handles := s.handles + 1,
                 refCount := s.refCount + cloneAddRefs (some 0),
                 addRefCalls := s.addRefCalls + cloneAddRefs (some 0) }
    | ComOp.drop =>
        { s with handles := s.handles - 1,
                 refCount := s.refCount - dropReleases (some 0),
                 releaseCalls := s.releaseCalls + dropReleases (some 0),
                 destructions :=
                   s.destructions + (if s.refCount - 1 = 0 then 1 else 0) }

/-- Execute a clone/drop sequence from the initial single-owner state. -/
def comRun (ops : List ComOp) : ComState :=
  ops.foldl comStep ComState.start

def countClones : List ComOp → Nat
  | [] => 0
  | ComOp.clone :: rest => countClones rest + 1
  | ComOp.drop :: rest => countClones rest

def countDrops : List ComOp → Nat
  | [] => 0
  | ComOp.clone :: rest => countDrops rest
  | ComOp.drop :: rest => countDrops rest + 1

theorem comStep_ok_false (s : ComState) (op : ComOp) (h : s.ok = false) :
    (comStep s op).ok = false := by
  unfold comStep
  by_cases h0 : s.handles = 0
  · simp [h0]
  · cases op <;> simp [h0, h]

theorem foldl_ok_false (ops : List ComOp) (s : ComState) (h : s.ok = false) :
    (ops.foldl comStep s).ok = false := by
  induction ops generalizing s with
  | nil => exact h
  | cons op ops ih => exact ih _ (comStep_ok_false s op h)

/-- The reachability invariant: each live handle holds exactly one native
reference, and the object has been destroyed exactly once iff no handle is
left. -/
def ComInv (s : ComState) : Prop :=
  s.refCount = s.handles ∧ s.destructions = (if s.handles = 0 then 1 else 0)

theorem comFold_spec (ops : List ComOp) (s : ComState) (hok : s.ok = true)
    (hinv : ComInv s) (hfin : (ops.foldl comStep s).ok = true) :
    ComInv (ops.foldl comStep s) ∧
      (ops.foldl comStep s).addRefCalls = s.addRefCalls + countClones ops ∧
      (ops.foldl comStep s).releaseCalls = s.releaseCalls + countDrops ops ∧
      (ops.foldl comStep s).handles + countDrops ops =
        s.handles + countClones ops := by
  induction ops generalizing s with
  | nil =>
      exact ⟨hinv, by simp [countClones], by simp [countDrops],
        by simp [countClones, countDrops]⟩
  | cons op ops ih =>
      rw [List.foldl_cons] at hfin ⊢
      by_cases h0 : s.handles = 0
      · exfalso
        have hbad : (ops.foldl comStep (comStep s op)).ok = false :=
          foldl_ok_false _ _ (by simp [comStep, h0])
        rw [hfin] at hbad
        simp at hbad
      · obtain ⟨hrc, hds⟩ := hinv
        have hds0 : s.destructions = 0 := by rw [hds, if_neg h0]
        have hok1 : (comStep s op).ok = true := by
          cases op <;> simp [comStep, h0, hok]
        have hinv1 : ComInv (comStep s op) := by
          cases op with
          | clone =>
              constructor
              · simp [comStep, h0, cloneAddRefs, hrc]
              · simp [comStep, h0, cloneAddRefs, hds0]
          | drop =>
              constructor
              · simp [comStep, h0, dropReleases, hrc]
              · simp [comStep, h0, dropReleases, hds0, hrc]
        obtain ⟨h1, h2, h3, h4⟩ := ih (comStep s op) hok1 hinv1 hfin
        refine ⟨h1, ?_, ?_, ?_⟩
        · rw [h2]
          cases op <;> simp [comStep, h0, cloneAddRefs, countClones] <;> omega
        · rw [h3]
          cases op <;> simp [comStep, h0, dropReleases, countDrops] <;> omega
        · cases op <;>
            simp [comStep, h0, cloneAddRefs, dropReleases,
              countClones, countDrops] at h4 ⊢ <;>
            omega

/-- Claim C3: for every valid sequence of clone/drop operations on the
handles of one mock reference-counted object (starting from the single
owning handle `from_raw` produced), every clone performs exactly one `AddRef`
and every drop exactly one `Release`, so the net native reference-count
change is `#clones − #drops`; the object is destroyed exactly once precisely
when the last owning handle has been dropped; and cloning or dropping a null
handle performs no `AddRef` or `Release` at all. -/
theorem refcount_discipline (ops : List ComOp)
    (hok : (comRun ops).ok = true) :
    (comRun ops).addRefCalls = countClones ops ∧
      (comRun ops).releaseCalls = countDrops ops ∧
      (comRun ops).refCount + countDrops ops = 1 + countClones ops ∧
      ((comRun ops).destructions = 1 ↔ (comRun ops).handles = 0) ∧
      cloneAddRefs none = 0 ∧ dropReleases none = 0 ∧
      cloneAddRefs (some 0) = 1 ∧ dropReleases (some 0) = 1 := by
  have hinv0 : ComInv ComState.start := by
    constructor <;> simp [ComState.start]
  unfold comRun at hok ⊢
  obtain ⟨⟨hrc, hds⟩, h2, h3, h4⟩ :=
    comFold_spec ops ComState.start rfl hinv0 hok
  refine ⟨by simpa [ComState.start] using h2, by simpa [ComState.start] using h3,
    ?_, ?_, rfl, rfl, rfl, rfl⟩
  · rw [hrc]
    simpa [ComState.start] using h4
  · rw [hds]
    by_cases h : (ops.foldl comStep ComState.start).handles = 0 <;> simp [h]

/-- Witness for C3 at the concrete sequence clone, drop, drop. -/
theorem refcount_discipline_witness :
    (comRun [ComOp.clone, ComOp.drop, ComOp.drop]).addRefCalls =
        countClones [ComOp.clone, ComOp.drop, ComOp.drop] ∧
      (comRun [ComOp.clone, ComOp.drop, ComOp.drop]).releaseCalls =
        countDrops [ComOp.clone, ComOp.drop, ComOp.drop] ∧
      (comRun [ComOp.clone, ComOp.drop, ComOp.drop]).refCount +
          countDrops [ComOp.clone, ComOp.drop, ComOp.drop] =
        1 + countClones [ComOp.clone, ComOp.drop, ComOp.drop] ∧
      ((comRun [ComOp.clone, ComOp.drop, ComOp.drop]).destructions = 1 ↔
        (comRun [ComOp.clone, ComOp.drop, ComOp.drop]).handles = 0) ∧
      cloneAddRefs none = 0 ∧ dropReleases none = 0 ∧
      cloneAddRefs (some 0) = 1 ∧ dropReleases (some 0) = 1 :=
  refcount_discipline [ComOp.clone, ComOp.drop, ComOp.drop] (by decide)

end Com

namespace CtxM

/-- A `D3D12_RESOURCE_BARRIER` of type TRANSITION as built by
`CommandContext::transition_resource` (src/graphics/command/context.rs):
the resource (by id), `StateBefore` and `StateAfter`.  Resource states are
the `D3D12_RESOURCE_STATES` bit patterns as plain naturals. -/
structure Barrier where
  resource : Nat
  stateBefore : Nat
  stateAfter : Nat
deriving Repr, DecidableEq, BEq

/-- `GpuResource` (src/graphics/resource.rs): the native resource (by id)
and its CPU-tracked `usage_state`. -/
structure GpuResource where
  id : Nat
  usage_state : Nat
deriving Repr, DecidableEq

/-- `CommandContext`: the accumulated `resource_barriers` vector, and the
command list modelled as the flat log of all barriers passed to
`ID3D12GraphicsCommandList::ResourceBarrier` so far. -/
structure CommandContext where
  resource_barriers : List Barrier
  submittedBarriers : List Barrier
deriving Repr, DecidableEq

/-- `CommandContext::flush_resource_barriers`: passes the whole current
`resource_barriers` vector to the command list
(`insert_resource_barriers`).  As in the source, the vector is NOT cleared
afterwards. -/
def flush_resource_barriers (c : CommandContext) : CommandContext :=
  { c with submittedBarriers := c.submittedBarriers ++ c.resource_barriers }

/-- `CommandContext::transition_resource(resource, new_state, flush)`: when
the tracked `usage_state` differs from `new_state`, push one transition
barrier (StateBefore = old tracked state, StateAfter = new state) and update
the tracked state immediately; then flush on demand. -/
def transition_resource (c : CommandContext) (r : GpuResource) (new_state : Nat)
    (flush : Bool) : CommandContext × GpuResource :=
  let p :=
    if r.usage_state ≠ new_state then
      ({ c with resource_barriers := c.resource_barriers ++
           [{ resource := r.id, stateBefore := r.usage_state,
              stateAfter := new_state }] },
       { r with usage_state := new_state })
    else (c, r)
  if flush then (flush_resource_barriers p.1, p.2) else p

/-- `CommandContext::end`: flushes the accumulated barriers once more. -/
def context_end (c : CommandContext) : CommandContext :=
  flush_resource_barriers c

/-- `D3D12_RESOURCE_STATE_COPY_DEST`. -/
def COPY_DEST : Nat := 1024

/-- `D3D12_RESOURCE_STATE_GENERIC_READ`. -/
def GENERIC_READ : Nat := 2755

/-- The barrier-relevant steps of `CommandContext::init_buffer` on a `dest`
resource whose tracked state is `destState`: `begin` (fresh context, empty
vectors), `transition_resource(dest, COPY_DEST, true)`, the copy (emits no
barrier), `transition_resource(dest, GENERIC_READ, true)`, `end(true)`. -/
def init_buffer_barriers (destState : Nat) : CommandContext × GpuResource :=
  let c0 : CommandContext := { resource_barriers := [], submittedBarriers := [] }
  let dest : GpuResource := { id := 0, usage_state := destState }
  let p1 := transition_resource c0 dest COPY_DEST true
  let p2 := transition_resource p1.1 p1.2 GENERIC_READ true
  (context_end p2.1, p2.2)

/-- Claim C5, evaluated at the failing input: running `init_buffer` on a
destination buffer tracked in `GENERIC_READ` submits the
GENERIC_READ→COPY_DEST barrier to the command list three times (once per
flush), because `flush_resource_barriers` never clears the accumulated
vector; the spec requires each accumulated barrier to be appended exactly
once. -/
theorem init_buffer_resubmits_barrier :
    ((init_buffer_barriers GENERIC_READ).1.submittedBarriers.count
        { resource := 0, stateBefore := GENERIC_READ, stateAfter := COPY_DEST }) = 3 ∧
      (init_buffer_barriers GENERIC_READ).1.resource_barriers.count
        { resource := 0, stateBefore := GENERIC_READ, stateAfter := COPY_DEST } = 1 := by
  decide

/-- Claim C6: `transition_resource` appends no barrier and leaves the
resource untouched when the tracked state already equals the requested one,
and otherwise appends exactly one transition barrier, carrying the old
tracked state as StateBefore and the new state as StateAfter, while updating
the tracked state immediately (independently of any flush or GPU
execution). -/
theorem transition_resource_elision (c : CommandContext) (r : GpuResource)
    (new_state : Nat) (flush : Bool) :
    (transition_resource c r new_state flush).1.resource_barriers =
        (if r.usage_state = new_state then c.resource_barriers
         else c.resource_barriers ++
           [{ resource := r.id, stateBefore := r.usage_state,
              stateAfter := new_state }]) ∧
      (transition_resource c r new_state flush).2 =
        { id := r.id, usage_state := new_state } := by
  by_cases h : r.usage_state = new_state
  · cases flush <;>
      simp [transition_resource, flush_resource_barriers, h] <;>
      exact congrArg (GpuResource.mk r.id) h
  · cases flush <;> simp [transition_resource, flush_resource_barriers, h]

end CtxM

namespace Sync

/-- 2^32: the modulus a `u64 as u32` cast applies in Rust. -/
def U32_MOD : Nat := 4294967296

/-- `winbase::INFINITE` (0xFFFFFFFF), the OS infinite-wait timeout. -/
def INFINITE_TIMEOUT : Nat := 4294967295

/-- `u64::max_value()`, which `Fence::wait` passes as its timeout. -/
def U64_MAX : Nat := 18446744073709551615

/-- An OS event (src/graphics/sync.rs `Event`): the oracle says, for each
millisecond timeout the wait is entered with, whether `WaitForSingleObject`
returns WAIT_OBJECT_0/WAIT_ABANDONED (true) or WAIT_TIMEOUT (false). -/
structure Event where
  signaledWithin : Nat → Bool

/-- `Event::wait(timeout_ms: u32)`: true iff the event is signaled before
the timeout elapses. -/
def Event.wait (e : Event) (timeout_ms : Nat) : Bool :=
  e.signaledWithin timeout_ms

/-- The errors of src/graphics/sync.rs relevant to waiting. -/
inductive FenceError where
  | fenceSetCompletionEventFailed
deriving Repr, DecidableEq

/-- `Fence`: the native fence, observed through `GetCompletedValue`. -/
structure Fence where
  completedValue : Nat

/-- `Fence::get_value`: reads `GetCompletedValue`; never blocks. -/
def Fence.get_value (f : Fence) : Nat :=
  f.completedValue

/-- `Fence::wait_with_timeout(event, value, timeout_ns: u64)`: if
`get_value() >= value`, returns `Ok(true)` at once.  Otherwise registers the
completion event (`set_event_on_completion`, whose native success is the
`setEventOk` input) and, when registration succeeds, blocks in
`event.wait(timeout_ns as _)` — the u64 timeout truncated to u32
milliseconds (on registration failure the `.map` short-circuits and no wait
happens).  The second component records whether the call left the immediate
fast path and attempted registration at all. -/
def Fence.wait_with_timeout (f : Fence) (setEventOk : Bool) (e : Event)
    (value : Nat) (timeout_ns : Nat) : Except FenceError Bool × Bool :=
  if f.get_value ≥ value then (Except.ok true, false)
  else if setEventOk then (Except.ok (e.wait (timeout_ns % U32_MOD)), true)
  else (Except.error FenceError.fenceSetCompletionEventFailed, true)

/-- `Fence::wait(event, value)`: `wait_with_timeout` with `u64::max_value()`. -/
def Fence.waitForever (f : Fence) (setEventOk : Bool) (e : Event)
    (value : Nat) : Except FenceError Bool × Bool :=
  f.wait_with_timeout setEventOk e value U64_MAX

/-- Modelled from the claim's wording, for comparison: a fence wait whose
blocking phase is an OS wait of exactly `ms` milliseconds. -/
def waitMsSpec (f : Fence) (setEventOk : Bool) (e : Event) (value : Nat)
    (ms : Nat) : Except FenceError Bool × Bool :=
  if f.get_value ≥ value then (Except.ok true, false)
  else if setEventOk then (Except.ok (e.wait ms), true)
  else (Except.error FenceError.fenceSetCompletionEventFailed, true)

/-- Claim C8: `wait_with_timeout` returns success (`Ok(true)`) immediately,
without registering any completion event or entering the OS wait, whenever
`get_value() >= value`; otherwise it enters the blocking path, whose result
is one of exactly three outcomes — reached (`Ok true`, the event was
signaled), timed out (`Ok false`), or error (`Err`, registering the
completion event failed). -/
theorem wait_with_timeout_semantics (f : Fence) (setEventOk : Bool) (e : Event)
    (value timeout_ns : Nat) :
    (value ≤ f.get_value →
        f.wait_with_timeout setEventOk e value timeout_ns =
          (Except.ok true, false)) ∧
      (f.get_value < value →
        (f.wait_with_timeout setEventOk e value timeout_ns).2 = true ∧
          (setEventOk = true →
            (f.wait_with_timeout setEventOk e value timeout_ns).1 =
              Except.ok (e.wait (timeout_ns % U32_MOD))) ∧
          (setEventOk = false →
            (f.wait_with_timeout setEventOk e value timeout_ns).1 =
              Except.error FenceError.fenceSetCompletionEventFailed) ∧
          ((f.wait_with_timeout setEventOk e value timeout_ns).1 =
              Except.ok true ∨
            (f.wait_with_timeout setEventOk e value timeout_ns).1 =
              Except.ok false ∨
            (f.wait_with_timeout setEventOk e value timeout_ns).1 =
              Except.error FenceError.fenceSetCompletionEventFailed)) := by
  constructor
  · intro h
    simp [Fence.wait_with_timeout, h]
  · intro h
    have hnot : ¬ f.get_value ≥ value := by omega
    cases setEventOk <;> simp [Fence.wait_with_timeout, hnot]

/-- Claim C10: the 64-bit `timeout_ns` is passed to the OS wait truncated to
its low 32 bits, interpreted as milliseconds: for every timeout `t` the wait
behaves exactly as a wait of `t % 2^32` milliseconds; `wait()` passes
`u64::MAX`, whose low 32 bits are the OS infinite-wait constant `INFINITE`;
and a timeout whose low 32 bits are zero behaves as a zero-length poll. -/
theorem wait_timeout_truncation (f : Fence) (setEventOk : Bool) (e : Event)
    (value t : Nat) :
    f.wait_with_timeout setEventOk e value t =
        waitMsSpec f setEventOk e value (t % U32_MOD) ∧
      f.waitForever setEventOk e value =
        waitMsSpec f setEventOk e value INFINITE_TIMEOUT ∧
      U64_MAX % U32_MOD = INFINITE_TIMEOUT ∧
      (t % U32_MOD = 0 →
        f.wait_with_timeout setEventOk e value t =
          waitMsSpec f setEventOk e value 0) := by
  refine ⟨rfl, ?_, by decide, ?_⟩
  · have h : U64_MAX % U32_MOD = INFINITE_TIMEOUT := by decide
    simp [Fence.waitForever, Fence.wait_with_timeout, waitMsSpec, h]
  · intro h
    simp [Fence.wait_with_timeout, waitMsSpec, h]

end Sync

namespace Rend

/-- The observable side effects `Renderer::on_window_resized`
(src/graphics/renderer.rs) performs when it does resize. -/
inductive ResizeEffect where
  | gpuFlush
  | releaseSwapchainResources
  | resizeBuffers (w h : Nat)
  | recreateRenderTargets
  | recreateDepthStencil
deriving Repr, DecidableEq

/-- The `Renderer` fields `on_window_resized` can touch. -/
structure RendererState where
  back_buffer_width : Nat
  back_buffer_height : Nat
  back_buffer_index : Nat
  color_space : Nat
  viewport_w : Nat
  viewport_h : Nat
  scissor_w : Nat
  scissor_h : Nat
deriving Repr, DecidableEq

/-- Environment of a successful resize: the back-buffer index the resized
swapchain reports and the recomputed color space. -/
structure ResizeEnv where
  currentIndexAfterResize : Nat
  newColorSpace : Nat
deriving Repr, DecidableEq

/-- `Renderer::on_window_resized(width, height)`: the whole body is guarded
by `back_buffer_width != width && back_buffer_height != height`; inside, the
stored sizes are clamped to at least 1, the GPU is flushed, swapchain-tied
resources are released, the swapchain buffers are resized, the index, color
space, render targets, depth/stencil, viewport and scissor are refreshed.
The returned list logs the external effects (empty = complete no-op). -/
def on_window_resized (env : ResizeEnv) (s : RendererState) (width height : Nat) :
    RendererState × List ResizeEffect :=
  if s.back_buffer_width ≠ width ∧ s.back_buffer_height ≠ height then
    let w := max width 1
    let h := max height 1
    ({ back_buffer_width := w, back_buffer_height := h,
       back_buffer_index := env.currentIndexAfterResize,
       color_space := env.newColorSpace,
       viewport_w := w, viewport_h := h, scissor_w := w, scissor_h := h },
     [ResizeEffect.gpuFlush, ResizeEffect.releaseSwapchainResources,
      ResizeEffect.resizeBuffers w h, ResizeEffect.recreateRenderTargets,
      ResizeEffect.recreateDepthStencil])
  else (s, [])

/-- Claim C9: `on_window_resized` is a complete no-op — no effect performed,
every field returned unchanged — unless BOTH the width and the height differ
from the stored back-buffer size (so a call changing only one dimension does
nothing); conversely, when both differ the resize work is performed. -/
theorem on_window_resized_requires_both_dims (env : ResizeEnv)
    (s : RendererState) (width height : Nat) :
    (¬(s.back_buffer_width ≠ width ∧ s.back_buffer_height ≠ height) →
        on_window_resized env s width height = (s, [])) ∧
      ((s.back_buffer_width ≠ width ∧ s.back_buffer_height ≠ height) →
        (on_window_resized env s width height).2 ≠ []) := by
  constructor
  · intro h
    simp [on_window_resized, h]
  · intro h
    simp [on_window_resized, h]

end Rend

namespace GCore

/-- Outcome of the `IDXGISwapChain::Present` native call. -/
inductive PresentHr where
  | ok
  | deviceRemoved
  | deviceReset
  | otherFailure
deriving Repr, DecidableEq

/-- Environment of one `GraphicsCore::present` call: the native present
status, the back-buffer index the swapchain reports after a successful
present, the fence's completed value when `move_to_next_frame` polls it, and
the current index reported by the swapchain rebuilt by
`handle_device_lost`. -/
structure PresentEnv where
  hr : PresentHr
  nextIndexAfterPresent : Nat
  indexAfterRecreate : Nat
deriving Repr, DecidableEq

/-- The `GraphicsCore` frame state (src/graphics_core.rs) the claim is
about: per-back-buffer fence values, the cached back-buffer index, and
`deviceGeneration`, which counts how many times the device-dependent object
graph (factory, device, queue, swapchain, heaps, fence, allocators) has been
built; `panicked` records process termination through `panic!`. -/
structure CoreState where
  backBufferCount : Nat
  fenceValues : List Nat
  backBufferIndex : Nat
  deviceGeneration : Nat
  panicked : Bool
deriving Repr, DecidableEq

/-- `GraphicsCore::wait_for_gpu`: signals the fence with the current
back buffer's fence value, blocks until it is reached, then increments that
slot's fence value. -/
def wait_for_gpu (s : CoreState) : CoreState :=
  let v := s.fenceValues.getD s.backBufferIndex 0
  { s with fenceValues := s.fenceValues.set s.backBufferIndex (v + 1) }

/-- `GraphicsCore::move_to_next_frame`: signal the queue with the current
slot's fence value, adopt the swapchain's new current index, wait if that
slot's previous fence value is not yet complete, and store
`current_fence_value + 1` as the new slot's target. -/
def move_to_next_frame (s : CoreState) (env : PresentEnv) : CoreState :=
  let current := s.fenceValues.getD s.backBufferIndex 0
  { s with backBufferIndex := env.nextIndexAfterPresent,
           fenceValues := s.fenceValues.set env.nextIndexAfterPresent (current + 1) }

/-- `GraphicsCore::handle_device_lost`: waits for the GPU, destroys every
device-dependent object, then recreates the whole graph (factory, device,
queue, descriptor heaps, command allocators, command list, fence, swapchain,
render targets, depth/stencil) — modelled as bumping `deviceGeneration` —
resetting every per-back-buffer fence value to 0
(`fence_values = vec![0; back_buffer_count]`) and caching the rebuilt
swapchain's current back-buffer index. -/
def handle_device_lost (s : CoreState) (env : PresentEnv) : CoreState :=
  let s1 := wait_for_gpu s
  { backBufferCount := s1.backBufferCount,
    fenceValues := List.replicate s1.backBufferCount 0,
    backBufferIndex := env.indexAfterRecreate,
    deviceGeneration := s1.deviceGeneration + 1,
    panicked := false }

/-- `GraphicsCore::present` after `ExecuteCommandLists`: on success, advance
to the next frame; on `DXGI_ERROR_DEVICE_REMOVED`/`DXGI_ERROR_DEVICE_RESET`,
run `handle_device_lost`; on any other failure, `panic!`. -/
def present (s : CoreState) (env : PresentEnv) : CoreState :=
  match env.hr with
  | PresentHr.ok => move_to_next_frame s env
  | PresentHr.deviceRemoved => handle_device_lost s env
  | PresentHr.deviceReset => handle_device_lost s env
  | PresentHr.otherFailure => { s with panicked := true }

/-- Claim C4: when `present` hits a device-removed or device-reset status it
recreates the full device-dependent object graph (a fresh generation) and
returns to a usable state instead of terminating the process, with every
per-back-buffer fence value reset to 0 and the back-buffer index reset to
the rebuilt swapchain's reported current index. -/
theorem present_device_lost_recovers (s : CoreState) (env : PresentEnv)
    (h : env.hr = PresentHr.deviceRemoved ∨ env.hr = PresentHr.deviceReset) :
    (present s env).panicked = false ∧
      (present s env).fenceValues = List.replicate s.backBufferCount 0 ∧
      (present s env).backBufferIndex = env.indexAfterRecreate ∧
      (present s env).deviceGeneration = s.deviceGeneration + 1 ∧
      (present s env).backBufferCount = s.backBufferCount := by
  rcases h with h | h <;>
    simp [present, h, handle_device_lost, wait_for_gpu]

/-- Witness for C4 at a concrete two-back-buffer state with outstanding
fence values 5 and 7 and a device-removed present. -/
theorem present_device_lost_recovers_witness :
    (present
          { backBufferCount := 2, fenceValues := [5, 7], backBufferIndex := 1,
            deviceGeneration := 0, panicked := false }
          { hr := PresentHr.deviceRemoved, nextIndexAfterPresent := 0,
            indexAfterRecreate := 0 }).panicked = false ∧
      (present
          { backBufferCount := 2, fenceValues := [5, 7], backBufferIndex := 1,
            deviceGeneration := 0, panicked := false }
          { hr := PresentHr.deviceRemoved, nextIndexAfterPresent := 0,
            indexAfterRecreate := 0 }).fenceValues = List.replicate 2 0 ∧
      (present
          { backBufferCount := 2, fenceValues := [5, 7], backBufferIndex := 1,
            deviceGeneration := 0, panicked := false }
          { hr := PresentHr.deviceRemoved, nextIndexAfterPresent := 0,
            indexAfterRecreate := 0 }).backBufferIndex = 0 ∧
      (present
          { backBufferCount := 2, fenceValues := [5, 7], backBufferIndex := 1,
            deviceGeneration := 0, panicked := false }
          { hr := PresentHr.deviceRemoved, nextIndexAfterPresent := 0,
            indexAfterRecreate := 0 }).deviceGeneration = 0 + 1 ∧
      (present
          { backBufferCount := 2, fenceValues := [5, 7], backBufferIndex := 1,
            deviceGeneration := 0, panicked := false }
          { hr := PresentHr.deviceRemoved, nextIndexAfterPresent := 0,
            indexAfterRecreate := 0 }).backBufferCount = 2 :=
  present_device_lost_recovers
    { backBufferCount := 2, fenceValues := [5, 7], backBufferIndex := 1,
      deviceGeneration := 0, panicked := false }
    { hr := PresentHr.deviceRemoved, nextIndexAfterPresent := 0,
      indexAfterRecreate := 0 }
    (Or.inl rfl)

end GCore

namespace Descr

/-- The fixed per-heap capacity `DESCRIPTOR_HEAP_SIZE` (256 descriptors). -/
def DESCRIPTOR_HEAP_SIZE : Nat := 256

/-- `DescriptorHeap` (src/graphics/descriptor.rs): the per-descriptor byte
increment the device reports, and the bump pointer `next_cpu_handle`
(initially `GetCPUDescriptorHandleForHeapStart`). -/
structure DescriptorHeap where
  heapStart : Nat
  descriptor_size : Nat
  next_cpu_handle : Nat
deriving Repr, DecidableEq

/-- `DescriptorHeap::new`: the bump pointer starts at the heap's CPU start
address. -/
def DescriptorHeap.create (start size : Nat) : DescriptorHeap :=
  { heapStart := start, descriptor_size := size, next_cpu_handle := start }

/-- `DescriptorHeap::allocate_cpu(count)`: returns the current handle and
advances the bump pointer by `count * descriptor_size`. -/
def DescriptorHeap.allocate_cpu (h : DescriptorHeap) (count : Nat) :
    Nat × DescriptorHeap :=
  (h.next_cpu_handle,
   { h with next_cpu_handle := h.next_cpu_handle + count * h.descriptor_size })

/-- `DescriptorAllocator`: the owned heaps, the index of the heap currently
allocated from, and the current heap's remaining free descriptor count. -/
structure DescriptorAllocator where
  heaps : List DescriptorHeap
  current_heap_id : Option Nat
  free_descriptors_count : Nat
deriving Repr, DecidableEq

/-- `DescriptorAllocator::new`: no heaps yet. -/
def DescriptorAllocator.start : DescriptorAllocator :=
  { heaps := [], current_heap_id := none,
    free_descriptors_count := DESCRIPTOR_HEAP_SIZE }

/-- One allocation as observed by the caller: which heap served it, the
returned CPU handle, and the requested descriptor count. -/
structure AllocEntry where
  heapId : Nat
  handle : Nat
  count : Nat
deriving Repr, DecidableEq

/-- `DescriptorAllocator::allocate_many(count)`: when there is no current
heap or `count > free_descriptors_count`, push a fresh fixed-capacity heap
(its CPU start address given by the environment `env`, its descriptor size
by the device constant `size`) and make it current with a full free count;
then bump-allocate `count` slots from the current heap and subtract from the
free count. -/
def allocate_many (env : Nat → Nat) (size : Nat) (s : DescriptorAllocator)
    (count : Nat) : AllocEntry × DescriptorAllocator :=
  let s1 :=
    if s.current_heap_id = none ∨ s.free_descriptors_count < count then
      { heaps := s.heaps ++ [DescriptorHeap.create (env s.heaps.length) size],
        current_heap_id := some s.heaps.length,
        free_descriptors_count := DESCRIPTOR_HEAP_SIZE }
    else s
  let heapId := s1.current_heap_id.getD 0
  let h := (s1.heaps[heapId]?).getD (DescriptorHeap.create 0 size)
  let r := h.allocate_cpu count
  ({ heapId := heapId, handle := r.1, count := count },
   { s1 with heaps := s1.heaps.set heapId r.2,
             free_descriptors_count := s1.free_descriptors_count - count })

/-- Run a sequence of `allocate_many` calls, logging each allocation. -/
def runAllocs (env : Nat → Nat) (size : Nat) (counts : List Nat) :
    DescriptorAllocator × List AllocEntry :=
  counts.foldl
    (fun p c =>
      let r := allocate_many env size p.1 c
      (r.2, p.2 ++ [r.1]))
    (DescriptorAllocator.start, [])

/-- Total number of descriptors the log records as served by heap `hid`. -/
def heapTotal : List AllocEntry → Nat → Nat
  | [], _ => 0
  | e :: rest, hid => (if e.heapId = hid then e.count else 0) + heapTotal rest hid

theorem heapTotal_append (l : List AllocEntry) (e : AllocEntry) (hid : Nat) :
    heapTotal (l ++ [e]) hid =
      heapTotal l hid + (if e.heapId = hid then e.count else 0) := by
  induction l with
  | nil => simp [heapTotal]
  | cons a l ih => simp [heapTotal, ih]; omega

theorem heapTotal_eq_zero (l : List AllocEntry) (hid : Nat)
    (h : ∀ e ∈ l, e.heapId ≠ hid) : heapTotal l hid = 0 := by
  induction l with
  | nil => rfl
  | cons a l ih =>
      have ha : a.heapId ≠ hid := h a (by simp)
      simp [heapTotal, ha]
      exact ih fun e he => h e (by simp [he])

theorem mem_of_getElem?_some {α : Type} {l : List α} {i : Nat} {a : α}
    (h : l[i]? = some a) : a ∈ l := by
  obtain ⟨hlt, rfl⟩ := List.getElem?_eq_some.mp h
  exact List.getElem_mem hlt

theorem set_append_length {α : Type} (l : List α) (a b : α) :
    (l ++ [a]).set l.length b = l ++ [b] := by
  induction l with
  | nil => rfl
  | cons x l ih => simp [List.set, ih]

theorem getElem?_append_lt {α : Type} (l : List α) (a : α) (i : Nat)
    (h : i < l.length) : (l ++ [a])[i]? = l[i]? := by
  rw [List.getElem?_append]
  simp [h]

theorem allocate_many_new (env : Nat → Nat) (size : Nat)
    (s : DescriptorAllocator) (count : Nat)
    (hnew : s.current_heap_id = none ∨ s.free_descriptors_count < count) :
    allocate_many env size s count =
      ({ heapId := s.heaps.length, handle := env s.heaps.length, count := count },
       { heaps := s.heaps ++
           [{ heapStart := env s.heaps.length, descriptor_size := size,
              next_cpu_handle := env s.heaps.length + count * size }],
         current_heap_id := some s.heaps.length,
         free_descriptors_count := DESCRIPTOR_HEAP_SIZE - count }) := by
  simp [allocate_many, hnew, DescriptorHeap.create, DescriptorHeap.allocate_cpu,
    set_append_length]

theorem allocate_many_cur (env : Nat → Nat) (size : Nat)
    (s : DescriptorAllocator) (count : Nat) (id : Nat) (h0 : DescriptorHeap)
    (hcur : s.current_heap_id = some id)
    (hfree : count ≤ s.free_descriptors_count)
    (hget : s.heaps[id]? = some h0) :
    allocate_many env size s count =
      ({ heapId := id, handle := h0.next_cpu_handle, count := count },
       { heaps := s.heaps.set id
           { h0 with next_cpu_handle :=
               h0.next_cpu_handle + count * h0.descriptor_size },
         current_heap_id := some id,
         free_descriptors_count := s.free_descriptors_count - count }) := by
  have hge : ¬ s.free_descriptors_count < count := by omega
  simp [allocate_many, hcur, hge, hget, DescriptorHeap.allocate_cpu]

/-- The reachability invariant tying a `DescriptorAllocator` state to its
allocation log: the current heap is the last one created; every heap's bump
pointer sits exactly `heapTotal * descriptor_size` bytes past its start; the
free count complements what the current heap has served; no heap ever serves
more than the fixed capacity; every logged allocation lies inside its heap's
served range; and allocations of one heap are served at strictly ascending,
disjoint ranges. -/
structure DInv (env : Nat → Nat) (size : Nat)
    (s : DescriptorAllocator) (log : List AllocEntry) : Prop where
  curLast : ∀ id, s.current_heap_id = some id → id + 1 = s.heaps.length
  heapSpec : ∀ hid h, s.heaps[hid]? = some h →
    h.heapStart = env hid ∧ h.descriptor_size = size ∧
      h.next_cpu_handle = env hid + heapTotal log hid * size
  entHeap : ∀ e ∈ log, e.heapId < s.heaps.length
  freeSpec : ∀ id, s.current_heap_id = some id →
    s.free_descriptors_count + heapTotal log id = DESCRIPTOR_HEAP_SIZE
  totalLe : ∀ hid, heapTotal log hid ≤ DESCRIPTOR_HEAP_SIZE
  entBound : ∀ e ∈ log,
    e.handle + e.count * size ≤ env e.heapId + heapTotal log e.heapId * size
  ordered : ∀ (i j : Nat) (ei ej : AllocEntry), i < j →
    log[i]? = some ei → log[j]? = some ej →
    ei.heapId = ej.heapId → ei.handle + ei.count * size ≤ ej.handle

theorem allocate_many_inv (env : Nat → Nat) (size : Nat)
    (s : DescriptorAllocator) (log : List AllocEntry) (count : Nat)
    (hc : count ≤ DESCRIPTOR_HEAP_SIZE) (hinv : DInv env size s log) :
    DInv env size (allocate_many env size s count).2
      (log ++ [(allocate_many env size s count).1]) := by
  by_cases hnew : s.current_heap_id = none ∨ s.free_descriptors_count < count
  · rw [allocate_many_new env size s count hnew]
    dsimp only
    set L := s.heaps.length with hL
    have hLzero : heapTotal log L = 0 :=
      heapTotal_eq_zero log L fun e he => Nat.ne_of_lt (hinv.entHeap e he)
    refine ⟨?_, ?_, ?_, ?_, ?_, ?_, ?_⟩
    · intro id hid
      cases hid
      simp
    · intro hid h hget
      rw [heapTotal_append]
      by_cases hlt : hid < L
      · rw [getElem?_append_lt _ _ _ hlt] at hget
        obtain ⟨h1, h2, h3⟩ := hinv.heapSpec hid h hget
        have hne : L ≠ hid := Nat.ne_of_gt hlt
        simp [hne, h1, h2, h3]
      · by_cases heq : hid = L
        · subst heq
          simp at hget
          subst hget
          simp [hLzero]
        · have : L < hid := by omega
          rw [List.getElem?_eq_none (by simp; omega)] at hget
          cases hget
    · intro e he
      simp at he
      rcases he with he | he
      · have := hinv.entHeap e he
        simp
        omega
      · simp [he]
    · intro id hid
      cases hid
      rw [heapTotal_append]
      simp [hLzero]
      omega
    · intro hid
      rw [heapTotal_append]
      by_cases heq : hid = L
      · subst heq
        simp [hLzero]
        omega
      · have hne : L ≠ hid := fun h => heq h.symm
        simp [hne]
        exact hinv.totalLe hid
    · intro e he
      simp at he
      rcases he with he | he
      · have hold := hinv.entBound e he
        rw [heapTotal_append]
        have : heapTotal log e.heapId ≤
            heapTotal log e.heapId +
              (if L = e.heapId then count else 0) := Nat.le_add_right _ _
        calc e.handle + e.count * size
            ≤ env e.heapId + heapTotal log e.heapId * size := hold
          _ ≤ env e.heapId +
              (heapTotal log e.heapId + (if L = e.heapId then count else 0)) * size :=
            Nat.add_le_add_left (Nat.mul_le_mul_right _ this) _
      · subst he
        rw [heapTotal_append]
        simp [hLzero]
    · intro i j ei ej hij hgi hgj hsame
      by_cases hjlt : j < log.length
      · rw [getElem?_append_lt _ _ _ hjlt] at hgj
        rw [getElem?_append_lt _ _ _ (Nat.lt_trans hij hjlt)] at hgi
        exact hinv.ordered i j ei ej hij hgi hgj hsame
      · by_cases hjeq : j = log.length
        · subst hjeq
          simp at hgj
          have hilt : i < log.length := hij
          rw [getElem?_append_lt _ _ _ hilt] at hgi
          have hmem := mem_of_getElem?_some hgi
          have hlt2 := hinv.entHeap ei hmem
          subst hgj
          simp only at hsame
          omega
        · rw [List.getElem?_eq_none (by simp; omega)] at hgj
          cases hgj
  · push_neg at hnew
    obtain ⟨hcurne, hfree⟩ := hnew
    cases hcur : s.current_heap_id with
    | none => exact absurd hcur hcurne
    | some id =>
    have hlen : id + 1 = s.heaps.length := hinv.curLast id hcur
    have hidlt : id < s.heaps.length := by omega
    have hget0 : s.heaps[id]? = some s.heaps[id] := List.getElem?_eq_getElem hidlt
    set h0 := s.heaps[id] with hh0
    obtain ⟨hstart, hsize, hnext⟩ := hinv.heapSpec id h0 hget0
    have hfs := hinv.freeSpec id hcur
    rw [allocate_many_cur env size s count id h0 hcur hfree hget0]
    dsimp only
    refine ⟨?_, ?_, ?_, ?_, ?_, ?_, ?_⟩
    · intro id' hid'
      cases hid'
      simp [hlen]
    · intro hid h hget
      rw [heapTotal_append]
      by_cases heq : hid = id
      · subst heq
        rw [List.getElem?_set_eq_of_lt _ hidlt] at hget
        cases hget
        simp [hsize, hnext, hstart]
        rw [Nat.add_mul]
        omega
      · have hne : id ≠ hid := fun h => heq h.symm
        rw [List.getElem?_set_ne hne] at hget
        obtain ⟨h1, h2, h3⟩ := hinv.heapSpec hid h hget
        simp [hne, h1, h2, h3]
    · intro e he
      simp at he
      rcases he with he | he
      · simpa using hinv.entHeap e he
      · simp [he]
        omega
    · intro id' hid'
      cases hid'
      rw [heapTotal_append]
      simp
      omega
    · intro hid
      rw [heapTotal_append]
      by_cases heq : hid = id
      · subst heq
        simp
        omega
      · have hne : id ≠ hid := fun h => heq h.symm
        simp [hne]
        exact hinv.totalLe hid
    · intro e he
      simp at he
      rcases he with he | he
      · have hold := hinv.entBound e he
        rw [heapTotal_append]
        calc e.handle + e.count * size
            ≤ env e.heapId + heapTotal log e.heapId * size := hold
          _ ≤ env e.heapId +
              (heapTotal log e.heapId + (if id = e.heapId then count else 0)) * size :=
            Nat.add_le_add_left
              (Nat.mul_le_mul_right _ (Nat.le_add_right _ _)) _
      · subst he
        rw [heapTotal_append]
        simp [hnext]
        rw [Nat.add_mul]
        omega
    · intro i j ei ej hij hgi hgj hsame
      by_cases hjlt : j < log.length
      · rw [getElem?_append_lt _ _ _ hjlt] at hgj
        rw [getElem?_append_lt _ _ _ (Nat.lt_trans hij hjlt)] at hgi
        exact hinv.ordered i j ei ej hij hgi hgj hsame
      · by_cases hjeq : j = log.length
        · subst hjeq
          simp at hgj
          have hilt : i < log.length := hij
          rw [getElem?_append_lt _ _ _ hilt] at hgi
          have hmem := mem_of_getElem?_some hgi
          have hbound := hinv.entBound ei hmem
          subst hgj
          simp only at hsame ⊢
          rw [hsame] at hbound
          rw [← hnext] at hbound
          exact hbound
        · rw [List.getElem?_eq_none (by simp; omega)] at hgj
          cases hgj

theorem start_inv (env : Nat → Nat) (size : Nat) :
    DInv env size DescriptorAllocator.start [] := by
  refine ⟨?_, ?_, ?_, ?_, ?_, ?_, ?_⟩
  · intro id hid
    exact absurd hid (by simp [DescriptorAllocator.start])
  · intro hid h hget
    exact absurd hget (by simp [DescriptorAllocator.start])
  · intro e he
    exact absurd he (by simp)
  · intro id hid
    exact absurd hid (by simp [DescriptorAllocator.start])
  · intro hid
    simp [heapTotal, DESCRIPTOR_HEAP_SIZE]
  · intro e he
    exact absurd he (by simp)
  · intro i j ei ej hij hgi hgj hsame
    exact absurd hgi (by simp)

theorem foldl_allocs_inv (env : Nat → Nat) (size : Nat) (counts : List Nat)
    (s : DescriptorAllocator) (log : List AllocEntry)
    (hc : ∀ c ∈ counts, c ≤ DESCRIPTOR_HEAP_SIZE) (hinv : DInv env size s log) :
    DInv env size
      (counts.foldl
        (fun p c =>
          let r := allocate_many env size p.1 c
          (r.2, p.2 ++ [r.1]))
        (s, log)).1
      (counts.foldl
        (fun p c =>
          let r := allocate_many env size p.1 c
          (r.2, p.2 ++ [r.1]))
        (s, log)).2 := by
  induction counts generalizing s log with
  | nil => exact hinv
  | cons c counts ih =>
      rw [List.foldl_cons]
      exact ih _ _ (fun c' hc' => hc c' (by simp [hc']))
        (allocate_many_inv env size s log c (hc c (by simp)) hinv)

theorem runAllocs_inv (env : Nat → Nat) (size : Nat) (counts : List Nat)
    (hc : ∀ c ∈ counts, c ≤ DESCRIPTOR_HEAP_SIZE) :
    DInv env size (runAllocs env size counts).1 (runAllocs env size counts).2 :=
  foldl_allocs_inv env size counts DescriptorAllocator.start [] hc
    (start_inv env size)

set_option maxRecDepth 100000 in
/-- Claim C7: over any allocation sequence (each request within the fixed
heap capacity of 256), (a) two allocations served by the same heap occupy
disjoint, strictly ascending descriptor ranges, (b) no heap ever serves more
descriptors in total than the fixed capacity 256 before a fresh heap takes
over, and (c) concretely, 300 one-descriptor allocations create exactly 2
heaps, the 257th allocation being served by the second heap at offset 0
(its handle is the second heap's start address). -/
theorem descriptor_allocator_properties (env : Nat → Nat) (size : Nat)
    (counts : List Nat) (hc : ∀ c ∈ counts, c ≤ DESCRIPTOR_HEAP_SIZE) :
    (∀ (i j : Nat) (ei ej : AllocEntry), i < j →
        (runAllocs env size counts).2[i]? = some ei →
        (runAllocs env size counts).2[j]? = some ej →
        ei.heapId = ej.heapId →
        ei.handle + ei.count * size ≤ ej.handle) ∧
      (∀ hid, heapTotal (runAllocs env size counts).2 hid ≤
        DESCRIPTOR_HEAP_SIZE) ∧
      ((runAllocs (fun i => 1000000 * i) 32 (List.replicate 300 1)).1.heaps.length
          = 2 ∧
        (runAllocs (fun i => 1000000 * i) 32 (List.replicate 300 1)).2[256]? =
          some { heapId := 1, handle := 1000000, count := 1 } ∧
        (runAllocs (fun i => 1000000 * i) 32
            (List.replicate 300 1)).1.heaps.map DescriptorHeap.heapStart =
          [0, 1000000]) :=
  ⟨(runAllocs_inv env size counts hc).ordered,
   (runAllocs_inv env size counts hc).totalLe,
   by decide, by decide, by decide⟩

set_option maxRecDepth 100000 in
/-- Witness for C7 at the concrete sequence of requests 1, 256, 2 with
descriptor size 4 and heap starts 0, 100, 200, …. -/
theorem descriptor_allocator_properties_witness :
    (∀ (i j : Nat) (ei ej : AllocEntry), i < j →
        (runAllocs (fun i => 100 * i) 4 [1, 256, 2]).2[i]? = some ei →
        (runAllocs (fun i => 100 * i) 4 [1, 256, 2]).2[j]? = some ej →
        ei.heapId = ej.heapId →
        ei.handle + ei.count * 4 ≤ ej.handle) ∧
      (∀ hid, heapTotal (runAllocs (fun i => 100 * i) 4 [1, 256, 2]).2 hid ≤
        DESCRIPTOR_HEAP_SIZE) ∧
      ((runAllocs (fun i => 1000000 * i) 32 (List.replicate 300 1)).1.heaps.length
          = 2 ∧
        (runAllocs (fun i => 1000000 * i) 32 (List.replicate 300 1)).2[256]? =
          some { heapId := 1, handle := 1000000, count := 1 } ∧
        (runAllocs (fun i => 1000000 * i) 32
            (List.replicate 300 1)).1.heaps.map DescriptorHeap.heapStart =
          [0, 1000000]) :=
  descriptor_allocator_properties (fun i => 100 * i) 4 [1, 256, 2] (by decide)

end Descr
